import Mathlib

/-!
Shallow embedding of the repository's single source file `src/lib.rs`
(modules `overloading`, `monad`, `impl_macro` and the `linq` declarative
query expansion), together with theorems settling the specification's
claims about it.

Conventions of the embedding:
* Rust `usize`/`u64` are modelled as `Nat` reduced modulo `2 ^ 64`
  (64-bit platform, wrapping semantics); the other fixed-width unsigned
  types likewise with their widths, and the signed types as `Int` with
  two's-complement wrapping.
* Rust `Option<T>` is Lean `Option T`; Rust `String` is Lean `String`.
* Iterator pipelines are modelled on `List`, with `Iterator::filter` as
  `List.filter` and `Iterator::map` as `List.map`; laziness of the Rust
  iterator is an operational detail with no observable effect on the
  produced sequence of elements, which is what the theorems speak about.
-/

namespace overloading

/-- Embeds the Rust trait `Foo<T>` (with associated type `Output` and
function `ctor`) as implemented for the struct `Overloading`: an instance
for a type `T` stands for `impl Foo<T> for Overloading`. -/
class Foo (T : Type) where
  Output : Type
  ctor : T → Output

/-- Body of `ctor` in `impl Foo<usize> for Overloading`: `arg * 10`,
with `usize` modelled as a 64-bit natural (wrapping product). -/
def ctorUsize (arg : Nat) : Nat := arg * 10 % 2 ^ 64

/-- Body of `ctor` in `impl Foo<String> for Overloading`: `arg + "!"`. -/
def ctorString (arg : String) : String := arg ++ "!"

instance instFooUsize : Foo Nat := ⟨Nat, ctorUsize⟩

instance instFooString : Foo String := ⟨String, ctorString⟩

/-- Embeds the convenience wrapper
`pub fn foo<T>(arg: T) -> <Overloading as Foo<T>>::Output where Overloading: Foo<T>`,
whose body is `<Overloading as Foo<T>>::ctor(arg)`. -/
def foo {T : Type} [Foo T] (arg : T) : Foo.Output T := Foo.ctor arg

end overloading

namespace monad

/-- Embeds `Monad::bind` of `impl<T> Monad for Option<T>`: on `Some(x)` it
returns `f(x)`, on `None` it returns `None` (the function is not consulted
in that branch). -/
def bind {T : Type} (o : Option T) (f : T → Option T) : Option T :=
  match o with
  | some x => f x
  | none => none

end monad

namespace traitGen

/-- Embeds `pub struct MyStruct<T>(pub T)` of the Rust module that
generates the repeated trait implementations; `val` is the tuple field `0`. -/
structure MyStruct (T : Type) where
  val : T

/-- Reduction of an unsigned `w`-bit Rust integer (wrapping semantics). -/
def wrapU (w : Nat) (n : Nat) : Nat := n % 2 ^ w

/-- Reduction of a signed `w`-bit Rust integer (two's-complement wrap). -/
def wrapI (w : Nat) (n : Int) : Int := (n + 2 ^ (w - 1)) % 2 ^ w - 2 ^ (w - 1)

/-- `foo` of the generated `impl Foo<usize> for MyStruct<usize>`: `self.0 + x`. -/
def foo_usize (s : MyStruct Nat) (x : Nat) : Nat := wrapU 64 (s.val + x)

/-- `foo` of the generated `impl Foo<u8> for MyStruct<u8>`. -/
def foo_u8 (s : MyStruct Nat) (x : Nat) : Nat := wrapU 8 (s.val + x)

/-- `foo` of the generated `impl Foo<u16> for MyStruct<u16>`. -/
def foo_u16 (s : MyStruct Nat) (x : Nat) : Nat := wrapU 16 (s.val + x)

/-- `foo` of the generated `impl Foo<u32> for MyStruct<u32>`. -/
def foo_u32 (s : MyStruct Nat) (x : Nat) : Nat := wrapU 32 (s.val + x)

/-- `foo` of the generated `impl Foo<u64> for MyStruct<u64>`. -/
def foo_u64 (s : MyStruct Nat) (x : Nat) : Nat := wrapU 64 (s.val + x)

/-- `foo` of the generated `impl Foo<u128> for MyStruct<u128>`. -/
def foo_u128 (s : MyStruct Nat) (x : Nat) : Nat := wrapU 128 (s.val + x)

/-- `foo` of the generated `impl Foo<isize> for MyStruct<isize>`. -/
def foo_isize (s : MyStruct Int) (x : Int) : Int := wrapI 64 (s.val + x)

/-- `foo` of the generated `impl Foo<i8> for MyStruct<i8>`. -/
def foo_i8 (s : MyStruct Int) (x : Int) : Int := wrapI 8 (s.val + x)

/-- `foo` of the generated `impl Foo<i16> for MyStruct<i16>`. -/
def foo_i16 (s : MyStruct Int) (x : Int) : Int := wrapI 16 (s.val + x)

/-- `foo` of the generated `impl Foo<i32> for MyStruct<i32>`. -/
def foo_i32 (s : MyStruct Int) (x : Int) : Int := wrapI 32 (s.val + x)

/-- `foo` of the generated `impl Foo<i64> for MyStruct<i64>`. -/
def foo_i64 (s : MyStruct Int) (x : Int) : Int := wrapI 64 (s.val + x)

/-- `foo` of the generated `impl Foo<i128> for MyStruct<i128>`. -/
def foo_i128 (s : MyStruct Int) (x : Int) : Int := wrapI 128 (s.val + x)

/-- Embeds `pub fn x() -> impl Foo<usize, Output = usize> { MyStruct(42) }`. -/
def x : MyStruct Nat := ⟨42⟩

end traitGen

namespace linq

/-- Embeds the first arm of the `linq` expansion
(`from $r in $d; select $s;` becomes `$d.map(|$r| $s)`): the query with no
`where` clauses is the plain projection of the source. -/
def linqSelect {α β : Type} (d : List α) (s : α → β) : List β := d.map s

/-- Embeds the second arm of the `linq` expansion
(`from $r in $d; $(where $w;)* select $s;` becomes
`$d.filter(|&$r| (true $(&$w)*)).map(|$r| $s)`): the element passes the
filter when the left-associated conjunction `true & w1 & ... & wn` of the
`where` expressions, folded below, is `true`. -/
def linqWhere {α β : Type} (d : List α) (ws : List (α → Bool)) (s : α → β) :
    List β :=
  (d.filter (fun r => ws.foldl (fun acc w => acc && w r) true)).map s

/-- Source-order, stop-at-first-false conjunction of the `where`
expressions: the remaining filters are not consulted once one is `false`. -/
def allPassSC {α : Type} (ws : List (α → Bool)) (r : α) : Bool :=
  match ws with
  | [] => true
  | w :: rest =>
    match w r with
    | false => false
    | true => allPassSC rest r

theorem foldl_and_eq_allPassSC {α : Type} (ws : List (α → Bool)) (r : α)
    (acc : Bool) :
    ws.foldl (fun acc w => acc && w r) acc = (acc && allPassSC ws r) := by
  induction ws generalizing acc with
  | nil => simp [allPassSC]
  | cons w rest ih =>
    simp only [List.foldl_cons]
    rw [ih]
    cases hw : w r <;> cases acc <;> simp [allPassSC, hw]

theorem linqWhere_eq_filter_map {α β : Type} (d : List α)
    (ws : List (α → Bool)) (s : α → β) :
    linqWhere d ws s = (d.filter (fun r => allPassSC ws r)).map s := by
  have h : (fun r => ws.foldl (fun acc w => acc && w r) true) =
      fun r => allPassSC ws r := by
    funext r
    rw [foldl_and_eq_allPassSC]
    simp
  rw [linqWhere, h]

end linq

open overloading monad traitGen linq

/-- Claim C4: `bind` on `Option` returns `None` on an absent input for every
function `f` (the `None` branch of the match does not consult `f`), and on
`Some(x)` returns `f(x)`. -/
theorem c4_bind_option_contract {T : Type} (x : T) (f : T → Option T) :
    monad.bind (none : Option T) f = none ∧ monad.bind (some x) f = f x :=
  ⟨rfl, rfl⟩

/-- Claim C5: `bind` is associative with respect to composition on a present
value, and absence propagates through any chain of `bind` links: folding any
list of continuations over an absent start yields absence. -/
theorem c5_bind_assoc_and_absence {T : Type} (x : T) (f g : T → Option T) :
    monad.bind (monad.bind (some x) f) g =
      monad.bind (some x) (fun y => monad.bind (f y) g) ∧
    ∀ fs : List (T → Option T), fs.foldl monad.bind (none : Option T) = none := by
  refine ⟨rfl, fun fs => ?_⟩
  induction fs with
  | nil => rfl
  | cons f fs ih => exact ih

/-- Claim C10: `bind` satisfies the right-identity law: rewrapping the
present value with `Some` (and passing absence through) returns the input
unchanged. -/
theorem c10_bind_right_identity {T : Type} (o : Option T) :
    monad.bind o (fun x => some x) = o := by
  cases o <;> rfl

/-- Claim C7: the query expansion over an empty source yields the empty
sequence, for both macro arms and regardless of the predicates and the
projection. -/
theorem c7_linq_empty_source {α β : Type} (ws : List (α → Bool)) (s : α → β) :
    linqSelect ([] : List α) s = [] ∧ linqWhere ([] : List α) ws s = [] :=
  ⟨rfl, rfl⟩

/-- Claim C1: with at least one filter, the query emits the projection of an
element exactly when the source-order, stop-at-first-false conjunction of the
filters passes (the generated `true & w1 & ... & wn` agrees with that
conjunction), preserving source order; the concrete query with predicate
`i % 2 == 0` and projection `i + 10` over `[1,...,10]` yields exactly
`[12, 14, 16, 18, 20]`. -/
theorem c1_linq_filter_semantics {α β : Type} (d : List α)
    (ws : List (α → Bool)) (s : α → β) (_hw : ws ≠ []) :
    linqWhere d ws s = (d.filter (fun r => allPassSC ws r)).map s ∧
    linqWhere [1, 2, 3, 4, 5, 6, 7, 8, 9, 10]
      [fun i : Int => i % 2 == 0] (fun i : Int => i + 10) =
      [12, 14, 16, 18, 20] :=
  ⟨linqWhere_eq_filter_map d ws s, by decide⟩

/-- Witness for C1 at the test's own input: one filter, `i % 2 == 0`, over
`[1,...,10]` with projection `i + 10`. -/
theorem c1_linq_filter_semantics_witness :
    linqWhere [1, 2, 3, 4, 5, 6, 7, 8, 9, 10]
        [fun i : Int => i % 2 == 0] (fun i : Int => i + 10) =
      (List.filter (fun r => allPassSC [fun i : Int => i % 2 == 0] r)
        [1, 2, 3, 4, 5, 6, 7, 8, 9, 10]).map (fun i : Int => i + 10) ∧
    linqWhere [1, 2, 3, 4, 5, 6, 7, 8, 9, 10]
        [fun i : Int => i % 2 == 0] (fun i : Int => i + 10) =
      [12, 14, 16, 18, 20] :=
  c1_linq_filter_semantics [1, 2, 3, 4, 5, 6, 7, 8, 9, 10]
    [fun i : Int => i % 2 == 0] (fun i : Int => i + 10) (by simp)

/-- Claim C6: with zero filters, the query is a pure element-wise transform:
the output has the source's length and its `i`-th element is the projection
of the source's `i`-th element; concretely, projecting `[1,...,10]` through
`i + 10` yields `[11, 12, ..., 20]` in order. -/
theorem c6_linq_select_transform {α β : Type} (d : List α) (s : α → β) :
    (linqSelect d s).length = d.length ∧
    (∀ i : Nat, (linqSelect d s)[i]? = Option.map s d[i]?) ∧
    linqSelect [1, 2, 3, 4, 5, 6, 7, 8, 9, 10] (fun i : Int => i + 10) =
      [11, 12, 13, 14, 15, 16, 17, 18, 19, 20] :=
  ⟨by simp [linqSelect], fun i => by simp [linqSelect], by decide⟩

/-- Claim C3: the overloading dispatcher's `String` implementation (both
`Overloading::ctor` and the wrapper `foo`) appends an exclamation mark:
the result is `s + "!"`, its characters are the characters of `s` followed
by `!`, and its length is one more than the length of `s`. -/
theorem c3_overloading_string (s : String) :
    (Foo.ctor s : String) = s ++ "!" ∧
    overloading.foo s = s ++ "!" ∧
    (overloading.foo s).data = s.data ++ [Char.ofNat 33] ∧
    (overloading.foo s).length = s.length + 1 := by
  refine ⟨rfl, rfl, ?_, ?_⟩ <;> cases s with
  | mk l => simp [overloading.foo, Foo.ctor, instFooString, ctorString,
      String.length]

/-- Claim C9: the convenience wrapper performs exactly the dispatcher's
type-directed selection: for every type with a registered implementation and
every argument, `foo arg` is `<Overloading as Foo<T>>::ctor(arg)`. -/
theorem c9_foo_eq_ctor (T : Type) [Foo T] (arg : T) :
    overloading.foo arg = Foo.ctor arg := rfl

/-- Witness for C9 at the registered `usize` implementation and argument 7. -/
theorem c9_foo_eq_ctor_witness :
    overloading.foo (7 : Nat) = Foo.ctor (7 : Nat) :=
  c9_foo_eq_ctor Nat 7

/-- Counterexample to Claim C2 as stated: at `n = 2 ^ 63` the 64-bit product
`n * 10` wraps (the Rust build would overflow), so the dispatcher does not
return `n * 10`. -/
theorem c2_overloading_usize_counterexample :
    ¬ (overloading.foo (9223372036854775808 : Nat) : Nat) =
      9223372036854775808 * 10 := by
  show ¬ ctorUsize 9223372036854775808 = 9223372036854775808 * 10
  decide

/-- Claim C2 (amended): for every `usize` value `n` whose product `n * 10`
fits in 64 bits, both `Overloading::ctor` and the wrapper `foo` return
`n * 10`. -/
theorem c2_overloading_usize_no_overflow (n : Nat) (h : n * 10 < 2 ^ 64) :
    (Foo.ctor n : Nat) = n * 10 ∧ overloading.foo n = n * 10 := by
  have hm : ctorUsize n = n * 10 := Nat.mod_eq_of_lt h
  exact ⟨hm, hm⟩

/-- Witness for the amended C2 at `n = 10`: the product fits and the result
is `100`. -/
theorem c2_overloading_usize_no_overflow_witness :
    (10 : Nat) * 10 < 2 ^ 64 ∧
    ((Foo.ctor (10 : Nat) : Nat) = 10 * 10 ∧
      overloading.foo (10 : Nat) = 10 * 10) :=
  ⟨by decide, c2_overloading_usize_no_overflow 10 (by decide)⟩

/-- Claim C8: the twelve generated implementations (one per listed numeric
type: `usize u8 u16 u32 u64 u128 isize i8 i16 i32 i64 i128`), each adding
the stored value to the argument, all return `50` when called with argument
`8` on a struct holding `42`; in particular this holds for `x()`, the
`MyStruct(42)` of the source. -/
theorem c8_traitGen_twelve_impls :
    foo_usize ⟨42⟩ 8 = 50 ∧ foo_u8 ⟨42⟩ 8 = 50 ∧ foo_u16 ⟨42⟩ 8 = 50 ∧
    foo_u32 ⟨42⟩ 8 = 50 ∧ foo_u64 ⟨42⟩ 8 = 50 ∧ foo_u128 ⟨42⟩ 8 = 50 ∧
    foo_isize ⟨42⟩ 8 = 50 ∧ foo_i8 ⟨42⟩ 8 = 50 ∧ foo_i16 ⟨42⟩ 8 = 50 ∧
    foo_i32 ⟨42⟩ 8 = 50 ∧ foo_i64 ⟨42⟩ 8 = 50 ∧ foo_i128 ⟨42⟩ 8 = 50 ∧
    foo_usize traitGen.x 8 = 50 := by
  decide
